import Mathlib

/-!
Shallow embedding of the Agent Task Executor (`src/executor/index.js`) and
proofs of the specified properties of its task-processing loop.

Modelling conventions:
* Machine state that the JS code mutates (the `activeContainers` map, the Redis
  queue, the persisted task hashes and the published progress events) is passed
  explicitly as values of `PState`.
* The Docker runtime is an oracle: an `EnvBehavior` per task id records whether
  each external call (`createContainer`, `fs.writeFileSync`, `container.start`,
  `container.wait`, the post-wait log/result reads) succeeds, rejects, or — for
  `wait` — never settles.
* An `async` function that can reject or never settle is embedded as a function
  returning `Outcome`: `returns v` (resolved), `throws msg` (rejected with an
  `Error` whose `.message` is `msg`), `diverges` (the awaited promise never
  settles, so the caller never resumes).
* Timestamps (`startedAt`, `completedAt`, `duration`), log output, webhook
  delivery (errors are swallowed at lines 92-102) and the Redis `incr` metric
  counters' key names are not modelled beyond what the claims mention; the
  success/failure counters are kept as two `Nat` fields.
-/

namespace AgentExecutor

/-- Configuration fields read by the executor (`src/executor/index.js`):
`maxContainers` is `config.docker.maxContainers` (line 32, optional in the JSON
file), `taskTimeout` is `config.agent.taskTimeout` in seconds (line 134),
`cleanupAfterMs` is `config.agent.cleanupAfterMs` (line 294), and `namePre` is
`config.docker.containerPrefix` (lines 38, 283). -/
structure Config where
  maxContainers : Option Nat
  taskTimeout : Nat
  cleanupAfterMs : Int
  namePre : String
  deriving Repr, DecidableEq

/-- Line 32: `const MAX_CONTAINERS = config.docker.maxContainers || 2;`.
A missing field is `undefined` and `0` is falsy in JS, so both fall back to 2. -/
def MAX_CONTAINERS (cfg : Config) : Nat :=
  match cfg.maxContainers with
  | none => 2
  | some 0 => 2
  | some n => n

/-- Behaviour of `container.wait()` (line 137) for one task's container:
the promise never settles, rejects with a message, or resolves with
`result.StatusCode`. -/
inductive WaitBeh where
  | hangs : WaitBeh
  | errs (msg : String) : WaitBeh
  | exits (code : Nat) : WaitBeh
  deriving Repr, DecidableEq

/-- Oracle for the external effects of one task's execution:
`createOk` — `docker.createContainer` (lines 42-63) resolves;
`writeOk` — `fs.writeFileSync` of the task file (line 127) does not throw;
`startOk` — `container.start()` (line 130) resolves;
`waitBeh` — behaviour of `container.wait()` (line 137);
`postOk` — `container.logs` (line 141) and the read/parse of the result file
(lines 144-149) succeed; `resultData` — content of the result artifact, `none`
when the file is absent (lines 147-149). -/
structure EnvBehavior where
  createOk : Bool
  writeOk : Bool
  startOk : Bool
  waitBeh : WaitBeh
  postOk : Bool
  resultData : Option String
  deriving Repr, DecidableEq

/-- Result of awaiting an async JS function: it settles with a value, settles
with a rejection, or never settles. -/
inductive Outcome (α : Type) where
  | diverges : Outcome α
  | throws (msg : String) : Outcome α
  | returns (v : α) : Outcome α
  deriving Repr, DecidableEq

/-- The value `executeTask` resolves with (lines 151-156); `logs` omitted. -/
structure ExecResult where
  success : Bool
  exitCode : Nat
  result : Option String
  deriving Repr, DecidableEq

/-- Full observable effect of one `executeTask` call: its outcome, the
`activeContainers` key set afterwards (for a diverging call: at the moment it
blocks forever), whether this call created a container, and the sizes of the
key set right after each mutation of the map (`set` at line 122, `delete` at
line 164) performed by this call. -/
structure ExecOutcome where
  outcome : Outcome ExecResult
  active : List String
  created : Bool
  sizes : List Nat
  deriving Repr, DecidableEq

/-- Lines 125-169 of `executeTask`, after the container has been obtained:
`fs.writeFileSync` (line 127) and `container.start()` (line 130) run OUTSIDE
the `try`/`finally`, so an exception there propagates without touching the map.
Line 134 computes `const timeout = config.agent.taskTimeout * 1000 || 300000`
but the value is never used: `container.wait()` is called with no timeout.
The `finally` block (lines 160-169) swallows `stop` rejections via
`.catch(() => ...)` and always runs `activeContainers.delete(taskId)` before
the try-block's value or exception propagates. -/
def execAfterAcquire (beh : EnvBehavior) (active : List String) (taskId : String)
    (created : Bool) (sizes : List Nat) : ExecOutcome :=
  if beh.writeOk = false then
    ⟨.throws "writeFileSync failed", active, created, sizes⟩
  else if beh.startOk = false then
    ⟨.throws "container.start failed", active, created, sizes⟩
  else
    match beh.waitBeh with
    | .hangs => ⟨.diverges, active, created, sizes⟩
    | .errs m =>
        ⟨.throws m, active.erase taskId, created, sizes ++ [(active.erase taskId).length]⟩
    | .exits code =>
        if beh.postOk = false then
          ⟨.throws "post-wait step failed", active.erase taskId, created,
            sizes ++ [(active.erase taskId).length]⟩
        else
          ⟨.returns ⟨decide (code = 0), code, beh.resultData⟩, active.erase taskId, created,
            sizes ++ [(active.erase taskId).length]⟩

/-- `executeTask(taskId, taskData)` (lines 110-170). Lines 114-123: the handle
is looked up in `activeContainers`; only when absent is the pool bound checked
(`activeContainers.size >= MAX_CONTAINERS` throws
`Error('Container pool exhausted')`), the container created
(`createContainer`, which may reject before the handle is registered) and the
handle registered via `activeContainers.set(taskId, container)`. -/
def executeTask (cfg : Config) (beh : EnvBehavior) (active : List String)
    (taskId : String) : ExecOutcome :=
  if taskId ∈ active then
    execAfterAcquire beh active taskId false []
  else if MAX_CONTAINERS cfg ≤ active.length then
    ⟨.throws "Container pool exhausted", active, false, []⟩
  else if beh.createOk = false then
    ⟨.throws "createContainer failed", active, false, []⟩
  else
    execAfterAcquire beh (taskId :: active) taskId true [(taskId :: active).length]

/-- One progress write, as performed by `updateProgress` (lines 71-105) or by
the final block of `processTask` (lines 220-240). `persist = true` iff the
write stores the `status` field into the Redis task hash: the `hset` inside
`updateProgress` (lines 79-85) writes only `progress`, `step`, `message` and
timestamps — NOT `status` — while the final `hset` (lines 220-228) does write
`status`. The `status` component below is the one carried by the published
progress event (line 88 resp. lines 231-240). -/
structure Ev where
  taskId : String
  status : String
  progress : Nat
  step : String
  message : String
  persist : Bool
  deriving Repr, DecidableEq

/-- A well-formed task envelope (line 183): `const \x7b id, task, tools, apiKey,
webhookUrl \x7d = taskData`. -/
structure TaskEnvelope where
  id : String
  task : String
  tools : List String
  apiKey : String
  webhookUrl : Option String
  deriving Repr, DecidableEq

/-- A raw queue message. `malformed` covers every message whose handling throws
before the first `updateProgress` call: non-JSON payloads (`JSON.parse`,
line 182) and JSON payloads missing the `task`/`tools` fields (lines 186-187
dereference them). -/
inductive Msg where
  | malformed (raw : String) : Msg
  | valid (env : TaskEnvelope) : Msg
  deriving Repr, DecidableEq

/-- Mutable state threaded through the consumer loop: the Redis task list
(`queue`, with list head first: `LPUSH` prepends at the head, `BRPOP` pops the
last element, `LPOP` pops the head), the key set of `activeContainers`, the
chronological trace of progress writes, the trace of `activeContainers` sizes
after each map mutation, and the two metric counters (lines 244-250). -/
structure PState where
  queue : List Msg
  active : List String
  events : List Ev
  sizes : List Nat
  completedCount : Nat
  failedCount : Nat
  deriving Repr, DecidableEq

/-- The two events of lines 190-206: `updateProgress` at 10% "starting" and at
30% "initializing", both with `status: 'running'` in the published payload. -/
def blockStart (t : String) : List Ev :=
  [⟨t, "running", 10, "starting", "Task started", false⟩,
   ⟨t, "running", 30, "initializing", "Preparing execution environment", false⟩]

/-- The events of lines 210-240, emitted unconditionally after `executeTask`
resolves: `updateProgress` at 90% "finalizing" (even when `result.success` is
false), then the final `hset` + publish pair, modelled as one persisted event
(the `hset` carries message `'Task completed successfully'`/`'Task failed'`;
the publish at lines 231-240 repeats the same status/progress/step). -/
def blockFin (t : String) (success : Bool) : List Ev :=
  [⟨t, "running", 90, "finalizing", "Saving results", false⟩,
   ⟨t, if success then "completed" else "failed",
      if success then 100 else 0,
      if success then "completed" else "failed",
      if success then "Task completed successfully" else "Task failed", true⟩]

/-- The single write of the catch handler (lines 262-268): `updateProgress`
with `status: 'failed', progress: 0, step: 'error'` and the caught error's
message. As with every `updateProgress` call, the persisted hash does not
receive the `status` field. -/
def blockCatch (t m : String) : List Ev :=
  [⟨t, "failed", 0, "error", m, false⟩]

/-- The catch block of `processTask` (lines 254-273): it pops one message with
`LPOP` — the HEAD of the list, the opposite end from the `BRPOP` at line 178 —
parses it, and writes the failed-update for THAT message's id. An unparsable
popped message hits the inner catch (lines 270-272) and is only logged; an
empty queue makes `lpop` return null and nothing is written. -/
def markFailedCatch (s : PState) (errMsg : String) : PState :=
  match s.queue with
  | [] => s
  | .malformed _ :: rest => { s with queue := rest }
  | .valid env :: rest =>
      { s with queue := rest, events := s.events ++ blockCatch env.id errMsg }

/-- Message of the `JSON.parse` exception for a malformed payload (the code
forwards `error.message`; the exact text does not matter to any claim). -/
def parseErrorMessage : String := "Unexpected token in JSON"

/-- Result of one `processTask` call: the state afterwards, and whether the
call blocked forever inside `container.wait()` (in which case `state` is the
state at the moment it blocked). -/
structure PResult where
  state : PState
  hung : Bool
  deriving Repr, DecidableEq

/-- `processTask()` (lines 175-274). `BRPOP` (line 178) removes the LAST
element of the Redis list; `JSON.parse` failure jumps to the catch block;
otherwise progress 10 and 30 are emitted, `executeTask` runs, and on
resolution the 90% event and the final status write follow unconditionally,
plus one metrics increment (lines 244-250). Any exception out of
`executeTask` jumps to the catch block. -/
def processTask (cfg : Config) (beh : String → EnvBehavior) (s : PState) : PResult :=
  match s.queue.getLast? with
  | none => ⟨s, false⟩
  | some msg =>
    let s0 : PState := { s with queue := s.queue.dropLast }
    match msg with
    | .malformed _ => ⟨markFailedCatch s0 parseErrorMessage, false⟩
    | .valid env =>
      let s2 : PState := { s0 with events := s0.events ++ blockStart env.id }
      let r := executeTask cfg (beh env.id) s2.active env.id
      let s3 : PState := { s2 with active := r.active, sizes := s2.sizes ++ r.sizes }
      match r.outcome with
      | .diverges => ⟨s3, true⟩
      | .throws m => ⟨markFailedCatch s3 m, false⟩
      | .returns res =>
          ⟨{ s3 with
              events := s3.events ++ blockFin env.id res.success,
              completedCount := s3.completedCount + (if res.success then 1 else 0),
              failedCount := s3.failedCount + (if res.success then 0 else 1) }, false⟩

/-- The consumer loop (lines 313-315) run for `n` iterations: `await
processTask()` repeatedly; a call that never resolves stops the loop forever. -/
def runTasks (cfg : Config) (beh : String → EnvBehavior) : Nat → PState → PResult
  | 0, s => ⟨s, false⟩
  | n + 1, s =>
      let r := processTask cfg beh s
      if r.hung then r else runTasks cfg beh n r.state

/-- One container as the Docker runtime reports it to `cleanup`:
its name, its creation time in ms, whether `container.inspect()` (line 288)
resolves (false models a container that vanished between `listContainers` and
`inspect`, or any inspect error), and whether `container.remove` (line 296)
resolves. -/
structure ContainerInfo where
  name : String
  created : Int
  inspectOk : Bool
  removeOk : Bool
  deriving Repr, DecidableEq

/-- Observable effect of one `cleanup()` tick: the names for which a
force-remove was issued (the `.catch(() => ...)` at line 296 swallows remove
rejections, so `removeOk` never influences the loop), and whether an inspect
rejection escaped to the outer catch (lines 299-301), abandoning the rest of
the listed containers for this tick. -/
structure CleanupResult where
  attempted : List String
  aborted : Bool
  deriving Repr, DecidableEq

/-- The loop of `cleanup` (lines 286-298) over the already-listed containers:
`await container.inspect()` rejecting propagates to the outer try/catch, so
every later container of the same tick is skipped; an over-age container
(`age > config.agent.cleanupAfterMs`, line 294) gets `remove(force := true)`
whose rejection is swallowed per container. -/
def cleanupLoop (cfg : Config) (now : Int) : List ContainerInfo → CleanupResult
  | [] => ⟨[], false⟩
  | c :: rest =>
      if c.inspectOk = false then ⟨[], true⟩
      else if cfg.cleanupAfterMs < now - c.created then
        let r := cleanupLoop cfg now rest
        ⟨c.name :: r.attempted, r.aborted⟩
      else cleanupLoop cfg now rest

/-- The `listContainers` name filter of line 283: a container matches the
executor's naming convention when its name begins with
`config.docker.containerPrefix` (`createContainer` names containers
`containerPrefix + taskId`, line 38). -/
def nameMatches (cfg : Config) (c : ContainerInfo) : Bool :=
  cfg.namePre.data.isPrefixOf c.name.data

/-- `cleanup()` (lines 279-302): lists containers from the Docker runtime
filtered by the executor's container-name convention (line 283) — the
in-memory `activeContainers` map is not consulted — then runs the sweep loop.
`runtimeContainers` is the runtime's own list of containers. -/
def cleanup (cfg : Config) (now : Int) (runtimeContainers : List ContainerInfo) :
    CleanupResult :=
  cleanupLoop cfg now (runtimeContainers.filter (fun c => nameMatches cfg c))

end AgentExecutor

namespace AgentExecutor

/-! ### Shared helper lemmas about `executeTask` -/

theorem execAfterAcquire_created (beh : EnvBehavior) (active : List String) (t : String)
    (c : Bool) (sz : List Nat) : (execAfterAcquire beh active t c sz).created = c := by
  cases hw : beh.writeOk <;> cases hst : beh.startOk <;> cases hwb : beh.waitBeh <;>
    cases hp : beh.postOk <;> simp [execAfterAcquire, hw, hst, hwb, hp]

theorem execAfterAcquire_active_cases (beh : EnvBehavior) (active : List String)
    (t : String) (c : Bool) (sz : List Nat) :
    ((execAfterAcquire beh active t c sz).active = active ∧
        (execAfterAcquire beh active t c sz).sizes = sz) ∨
      ((execAfterAcquire beh active t c sz).active = active.erase t ∧
        (execAfterAcquire beh active t c sz).sizes = sz ++ [(active.erase t).length]) := by
  unfold execAfterAcquire
  by_cases hw : beh.writeOk = false
  · simp [hw]
  · by_cases hst : beh.startOk = false
    · simp [hw, hst]
    · rcases beh.waitBeh with _ | m | code <;> simp [hw, hst]
      by_cases hp : beh.postOk = false <;> simp [hp]

theorem execAfterAcquire_term_active (beh : EnvBehavior) (active : List String)
    (t : String) (c : Bool) (sz : List Nat)
    (hw : beh.writeOk = true) (hst : beh.startOk = true)
    (hterm : (execAfterAcquire beh active t c sz).outcome ≠ Outcome.diverges) :
    (execAfterAcquire beh active t c sz).active = active.erase t := by
  unfold execAfterAcquire at hterm ⊢
  rcases hwb : beh.waitBeh with _ | m | code <;>
    simp [hw, hst, hwb] at hterm ⊢
  by_cases hp : beh.postOk = false <;> simp [hp]

theorem execAfterAcquire_bound (beh : EnvBehavior) (active : List String) (t : String)
    (c : Bool) (sz : List Nat) (N : Nat) (ha : active.length ≤ N)
    (hs : ∀ k ∈ sz, k ≤ N) :
    (execAfterAcquire beh active t c sz).active.length ≤ N ∧
      ∀ k ∈ (execAfterAcquire beh active t c sz).sizes, k ≤ N := by
  have he : (active.erase t).length ≤ N :=
    le_trans (List.erase_sublist t active).length_le ha
  rcases execAfterAcquire_active_cases beh active t c sz with ⟨h1, h2⟩ | ⟨h1, h2⟩ <;>
    rw [h1, h2]
  · exact ⟨ha, hs⟩
  · refine ⟨he, fun k hk => ?_⟩
    rcases List.mem_append.mp hk with hk | hk
    · exact hs k hk
    · rw [List.mem_singleton.mp hk]; exact he

theorem executeTask_bound (cfg : Config) (beh : EnvBehavior) (active : List String)
    (taskId : String) (ha : active.length ≤ MAX_CONTAINERS cfg) :
    (executeTask cfg beh active taskId).active.length ≤ MAX_CONTAINERS cfg ∧
      ∀ k ∈ (executeTask cfg beh active taskId).sizes, k ≤ MAX_CONTAINERS cfg := by
  unfold executeTask
  by_cases h1 : taskId ∈ active
  · simpa [h1] using execAfterAcquire_bound beh active taskId false [] _ ha (by simp)
  · by_cases h2 : MAX_CONTAINERS cfg ≤ active.length
    · simp [h1, h2]; exact ha
    · by_cases h3 : beh.createOk = false
      · simp [h1, h2, h3]; exact ha
      · have hlt : active.length < MAX_CONTAINERS cfg := Nat.lt_of_not_le h2
        have h4 : (taskId :: active).length ≤ MAX_CONTAINERS cfg := by
          simpa using hlt
        simpa [h1, h2, h3] using
          execAfterAcquire_bound beh (taskId :: active) taskId true
            [(taskId :: active).length] _ h4 (by simpa using h4)

/-- C1: the claim says that `wait` is bounded by `taskTimeoutSeconds` — that it
returns at completion or timeout, whichever comes first — and that a task whose
environment exceeds the bound ends failed with its environment removed. The
code contradicts this (and its own comment `// Wait for completion (with
timeout)`): line 134 computes the timeout but never passes it to
`container.wait()` at line 137. Formally: (1) `executeTask` is invariant under
arbitrary changes of the configured `taskTimeout`, and (2) on an environment
that never signals completion, `executeTask` never returns — it blocks forever
with the container still registered — instead of failing the task and removing
the environment. -/
theorem C1_wait_ignores_timeout :
    (∀ t₁ t₂ : Nat, ∀ (mc : Option Nat) (cl : Int) (np : String) (beh : EnvBehavior)
        (active : List String) (taskId : String),
        executeTask ⟨mc, t₁, cl, np⟩ beh active taskId
          = executeTask ⟨mc, t₂, cl, np⟩ beh active taskId) ∧
    executeTask ⟨some 2, 2, 1000, "agent-"⟩ ⟨true, true, true, .hangs, true, none⟩ [] "t3"
      = ⟨.diverges, ["t3"], true, [1]⟩ := by
  refine ⟨fun t₁ t₂ mc cl np beh active taskId => rfl, by decide⟩

/-- C2 counterexample: with the container created and registered but
`container.start()` rejecting, `executeTask` terminates by exception while the
task id is still in the active-handle map: `fs.writeFileSync` (line 127) and
`container.start()` (line 130) sit OUTSIDE the `try`/`finally` of lines
136-169, so this exit path performs no remove. This refutes the claim that
every create is matched by a remove on every exit path including exceptions
while writing the workspace file and starting the container. -/
theorem C2_cex_start_leak :
    executeTask ⟨some 2, 2, 1000, "agent-"⟩ ⟨true, true, false, .exits 0, true, none⟩ [] "t2"
      = ⟨.throws "container.start failed", ["t2"], true, [1]⟩ := by decide

/-- C2 (amended): the guaranteed-release block covers only the phase from
`container.wait()` onward. If the workspace write and the container start both
succeed, then on every terminating exit path (normal return, exception from
`wait`, exception from the post-wait log/result steps) the task id has been
deleted from the active-handle map; an exception thrown while writing the
workspace file or starting the container instead leaves the handle registered
(see the counterexample), to be reclaimed only by the Cleanup Sweeper. -/
theorem C2_amended_cleanup (cfg : Config) (beh : EnvBehavior) (active : List String)
    (taskId : String) (hnd : active.Nodup) (hw : beh.writeOk = true)
    (hst : beh.startOk = true)
    (hterm : (executeTask cfg beh active taskId).outcome ≠ Outcome.diverges) :
    taskId ∉ (executeTask cfg beh active taskId).active := by
  have hErase : ∀ l : List String, l.Nodup → taskId ∉ l.erase taskId := fun l hl hmem =>
    ((List.Nodup.mem_erase_iff hl).mp hmem).1 rfl
  unfold executeTask at hterm ⊢
  by_cases h1 : taskId ∈ active
  · rw [if_pos h1] at hterm ⊢
    rw [execAfterAcquire_term_active beh active taskId false [] hw hst hterm]
    exact hErase active hnd
  · rw [if_neg h1] at hterm ⊢
    by_cases h2 : MAX_CONTAINERS cfg ≤ active.length
    · rw [if_pos h2] at hterm ⊢; exact h1
    · rw [if_neg h2] at hterm ⊢
      by_cases h3 : beh.createOk = false
      · rw [if_pos h3] at hterm ⊢; exact h1
      · rw [if_neg h3] at hterm ⊢
        rw [execAfterAcquire_term_active beh (taskId :: active) taskId true _ hw hst hterm]
        rw [List.erase_cons_head]
        exact h1

/-- Closed witness for `C2_amended_cleanup`: a container created for `"t9"`
whose run exits with status 1 ends with `"t9"` no longer registered. -/
theorem C2_amended_cleanup_witness :
    "t9" ∉ (executeTask ⟨some 2, 2, 1000, "agent-"⟩ ⟨true, true, true, .exits 1, true, none⟩
      ["t9", "x"] "t9").active :=
  C2_amended_cleanup ⟨some 2, 2, 1000, "agent-"⟩ ⟨true, true, true, .exits 1, true, none⟩
    ["t9", "x"] "t9" (by decide) rfl rfl (by decide)

/-- C10: when `executeTask` is invoked for a task id already present in the
active-handle map, lines 114-123 reuse the stored handle: no container is
created (`created = false`) and the branch performing the
`activeContainers.size >= MAX_CONTAINERS` check is never reached, so the whole
call is independent of the configured pool bound (and of every other
configuration field). -/
theorem C10_reuse_skips_pool_check (cfg cfg' : Config) (beh : EnvBehavior)
    (active : List String) (taskId : String) (h : taskId ∈ active) :
    (executeTask cfg beh active taskId).created = false ∧
      executeTask cfg beh active taskId = executeTask cfg' beh active taskId := by
  constructor
  · simp only [executeTask, h, if_true]
    exact execAfterAcquire_created beh active taskId false []
  · simp [executeTask, h]

/-- Closed witness for `C10_reuse_skips_pool_check`: with `maxContainers = 1`
and the pool already at capacity holding `"t1"`, re-invoking for `"t1"` does
not create a container and behaves identically under a different bound. -/
theorem C10_reuse_skips_pool_check_witness :
    (executeTask ⟨some 1, 2, 1000, "agent-"⟩ ⟨true, true, true, .exits 0, true, none⟩
        ["t1"] "t1").created = false ∧
      executeTask ⟨some 1, 2, 1000, "agent-"⟩ ⟨true, true, true, .exits 0, true, none⟩
          ["t1"] "t1"
        = executeTask ⟨some 5, 9, 7, "x-"⟩ ⟨true, true, true, .exits 0, true, none⟩
          ["t1"] "t1" :=
  C10_reuse_skips_pool_check ⟨some 1, 2, 1000, "agent-"⟩ ⟨some 5, 9, 7, "x-"⟩
    ⟨true, true, true, .exits 0, true, none⟩ ["t1"] "t1" (by decide)

end AgentExecutor

namespace AgentExecutor

/-! ### The pool cardinality invariant (C5) -/

/-- The bound the pool must satisfy at every instant: the current size of the
active-handle map is at most `N`, and so was the size right after every past
mutation of the map. -/
abbrev SizeInv (N : Nat) (s : PState) : Prop :=
  s.active.length ≤ N ∧ ∀ k ∈ s.sizes, k ≤ N

theorem markFailedCatch_active (s : PState) (m : String) :
    (markFailedCatch s m).active = s.active := by
  unfold markFailedCatch
  rcases s.queue with _ | ⟨_ | _, rest⟩ <;> rfl

theorem markFailedCatch_sizes (s : PState) (m : String) :
    (markFailedCatch s m).sizes = s.sizes := by
  unfold markFailedCatch
  rcases s.queue with _ | ⟨_ | _, rest⟩ <;> rfl

theorem processTask_sizeInv (cfg : Config) (beh : String → EnvBehavior) (s : PState)
    (h : SizeInv (MAX_CONTAINERS cfg) s) :
    SizeInv (MAX_CONTAINERS cfg) (processTask cfg beh s).state := by
  obtain ⟨ha, hs⟩ := h
  unfold processTask
  rcases hq : s.queue.getLast? with _ | msg
  · exact ⟨ha, hs⟩
  rcases msg with raw | env
  · refine ⟨?_, ?_⟩
    · rw [markFailedCatch_active]; exact ha
    · rw [markFailedCatch_sizes]; exact hs
  · have hex := executeTask_bound cfg (beh env.id) s.active env.id ha
    have happ : ∀ k ∈ s.sizes ++ (executeTask cfg (beh env.id) s.active env.id).sizes,
        k ≤ MAX_CONTAINERS cfg := by
      intro k hk
      rcases List.mem_append.mp hk with hk | hk
      · exact hs k hk
      · exact hex.2 k hk
    rcases ho : (executeTask cfg (beh env.id) s.active env.id).outcome with _ | m | res <;>
      simp only [ho]
    · exact ⟨hex.1, happ⟩
    · refine ⟨?_, ?_⟩
      · rw [markFailedCatch_active]; exact hex.1
      · rw [markFailedCatch_sizes]; exact happ
    · exact ⟨hex.1, happ⟩

theorem runTasks_sizeInv (cfg : Config) (beh : String → EnvBehavior) (n : Nat) (s : PState)
    (h : SizeInv (MAX_CONTAINERS cfg) s) :
    SizeInv (MAX_CONTAINERS cfg) (runTasks cfg beh n s).state := by
  induction n generalizing s with
  | zero => exact h
  | succ n ih =>
      unfold runTasks
      by_cases hh : (processTask cfg beh s).hung <;> simp only [hh, if_true, if_false]
      · exact processTask_sizeInv cfg beh s h
      · exact ih _ (processTask_sizeInv cfg beh s h)

/-- C5: for every configured pool bound `N > 0` and every sequence of processed
tasks (any queue contents, any container behaviours, any number of loop
iterations), the cardinality of the active-handle map never exceeds `N`: it is
at most `N` at the end and was at most `N` right after every `set`/`delete`
performed on the map along the way, because the `set` at line 122 is guarded by
the `activeContainers.size >= MAX_CONTAINERS` check at line 117. -/
theorem C5_pool_bound (cfg : Config) (beh : String → EnvBehavior) (n N : Nat)
    (s : PState) (hN : cfg.maxContainers = some N) (hpos : 0 < N)
    (h0 : s.active.length ≤ N) (hs : ∀ k ∈ s.sizes, k ≤ N) :
    (runTasks cfg beh n s).state.active.length ≤ N ∧
      ∀ k ∈ (runTasks cfg beh n s).state.sizes, k ≤ N := by
  have hM : MAX_CONTAINERS cfg = N := by
    cases N with
    | zero => exact absurd hpos (by simp)
    | succ m => unfold MAX_CONTAINERS; rw [hN]; rfl
  have := runTasks_sizeInv cfg beh n s (by rw [hM]; exact ⟨h0, hs⟩)
  rw [hM] at this
  exact this

/-- Closed witness for `C5_pool_bound`: three submitted tasks against a pool of
size 1, run for three loop iterations starting from an empty map. -/
theorem C5_pool_bound_witness :
    (runTasks ⟨some 1, 2, 1000, "agent-"⟩
        (fun _ => ⟨true, true, true, .exits 0, true, none⟩) 3
        ⟨[.valid ⟨"a", "demo", [], "key-1234567890", none⟩,
          .valid ⟨"b", "demo", [], "key-1234567890", none⟩,
          .valid ⟨"c", "demo", [], "key-1234567890", none⟩], [], [], [], 0, 0⟩).state.active.length ≤ 1 ∧
      ∀ k ∈ (runTasks ⟨some 1, 2, 1000, "agent-"⟩
        (fun _ => ⟨true, true, true, .exits 0, true, none⟩) 3
        ⟨[.valid ⟨"a", "demo", [], "key-1234567890", none⟩,
          .valid ⟨"b", "demo", [], "key-1234567890", none⟩,
          .valid ⟨"c", "demo", [], "key-1234567890", none⟩], [], [], [], 0, 0⟩).state.sizes, k ≤ 1 :=
  C5_pool_bound ⟨some 1, 2, 1000, "agent-"⟩
    (fun _ => ⟨true, true, true, .exits 0, true, none⟩) 3 1
    ⟨[.valid ⟨"a", "demo", [], "key-1234567890", none⟩,
      .valid ⟨"b", "demo", [], "key-1234567890", none⟩,
      .valid ⟨"c", "demo", [], "key-1234567890", none⟩], [], [], [], 0, 0⟩
    rfl (by decide) (by decide) (by decide)

end AgentExecutor

namespace AgentExecutor

/-! ### Event traces per task -/

/-- The progress writes concerning one task, in chronological order. -/
def eventsFor (t : String) (evs : List Ev) : List Ev :=
  evs.filter (fun e => e.taskId == t)

theorem eventsFor_append (t : String) (l₁ l₂ : List Ev) :
    eventsFor t (l₁ ++ l₂) = eventsFor t l₁ ++ eventsFor t l₂ :=
  List.filter_append l₁ l₂

theorem eventsFor_eq_self (u : String) (blk : List Ev)
    (hblk : ∀ e ∈ blk, e.taskId = u) : eventsFor u blk = blk := by
  unfold eventsFor
  apply List.filter_eq_self.mpr
  intro e he
  simpa using hblk e he

theorem eventsFor_eq_nil (t u : String) (blk : List Ev)
    (hblk : ∀ e ∈ blk, e.taskId = u) (hne : t ≠ u) : eventsFor t blk = [] := by
  unfold eventsFor
  apply List.filter_eq_nil_iff.mpr
  intro e he
  simp [hblk e he]
  exact fun h => hne h.symm

theorem blockStart_ids (t : String) : ∀ e ∈ blockStart t, e.taskId = t := by
  intro e he
  simp [blockStart] at he
  rcases he with h | h <;> rw [h]

theorem blockFin_ids (t : String) (b : Bool) : ∀ e ∈ blockFin t b, e.taskId = t := by
  intro e he
  simp [blockFin] at he
  rcases he with h | h <;> rw [h]

theorem blockCatch_ids (t m : String) : ∀ e ∈ blockCatch t m, e.taskId = t := by
  intro e he
  simp [blockCatch] at he
  rw [he]

/-- C3: the spec claims that a malformed queue message is logged and dropped
with no effect on any other task, the next valid message being processed
normally. The code instead, inside the catch block (lines 258-269), pops one
more message with `LPOP` — while the malformed one was already removed by the
`BRPOP` at line 178 — and marks THAT message's task as failed without ever
executing it. Concretely: with the Redis list holding the valid task `"t2"`
(head) and a malformed payload (tail, dequeued first), one `processTask` call
consumes BOTH messages, writes the failed/progress-0 update for `"t2"`, and
leaves `"t2"` unexecuted (its trace has no `starting`/`running` event and the
queue is empty afterwards). -/
theorem C3_catch_consumes_next_message :
    processTask ⟨some 2, 2, 1000, "agent-"⟩
        (fun _ => ⟨true, true, true, .exits 0, true, none⟩)
        ⟨[.valid ⟨"t2", "demo", [], "key-1234567890", none⟩, .malformed "not json"],
          [], [], [], 0, 0⟩
      = ⟨⟨[], [], blockCatch "t2" parseErrorMessage, [], 0, 0⟩, false⟩ ∧
    (blockCatch "t2" parseErrorMessage).all
        (fun e => e.status == "failed" && e.progress == 0) = true := by
  constructor
  · rfl
  · rfl

/-- C4: the spec claims that a task dequeued while the pool is exhausted
immediately gets `status=failed` with message "pool exhausted" and no
environment. In the code, `executeTask` does throw `'Container pool
exhausted'` before creating anything (lines 116-119), but the catch block of
`processTask` marks the WRONG task: it pops the next queued message with
`LPOP` (line 259) — the dequeued task itself was already removed by `BRPOP` —
so when the queue is now empty nothing at all is written and the dequeued
task keeps its last update forever. Concretely: with `maxContainers = 1`, the
map already holding `"t1"`, and `"t2"` the only queued task, the run ends with
`"t2"`'s trace being exactly the two `running` updates (progress 10 and 30),
no `failed` write for any task, and the map unchanged. -/
theorem C4_pool_exhausted_marks_no_task :
    processTask ⟨some 1, 2, 1000, "agent-"⟩
        (fun _ => ⟨true, true, true, .exits 0, true, none⟩)
        ⟨[.valid ⟨"t2", "demo", [], "key-1234567890", none⟩], ["t1"], [], [], 0, 0⟩
      = ⟨⟨[], ["t1"], blockStart "t2", [], 0, 0⟩, false⟩ ∧
    (blockStart "t2").all (fun e => e.status == "running") = true := by
  constructor
  · rfl
  · rfl

end AgentExecutor

namespace AgentExecutor

/-! ### The success / non-zero-exit traces (C6, C7) -/

theorem executeTask_outcome_exits (cfg : Config) (beh : EnvBehavior) (active : List String)
    (taskId : String) (code : Nat)
    (hc : beh.createOk = true) (hw : beh.writeOk = true) (hst : beh.startOk = true)
    (hwb : beh.waitBeh = .exits code) (hp : beh.postOk = true)
    (hroom : taskId ∈ active ∨ active.length < MAX_CONTAINERS cfg) :
    (executeTask cfg beh active taskId).outcome
      = .returns ⟨decide (code = 0), code, beh.resultData⟩ := by
  unfold executeTask execAfterAcquire
  by_cases hm : taskId ∈ active
  · simp [hm, hw, hst, hwb, hp]
  · rcases hroom with h | h
    · exact absurd h hm
    · simp [hm, hw, hst, hwb, hp, hc, Nat.not_le.mpr h]

theorem processTask_returns (cfg : Config) (beh : String → EnvBehavior)
    (q : List Msg) (env : TaskEnvelope) (a : List String) (ev : List Ev)
    (sz : List Nat) (cc fc : Nat) (res : ExecResult)
    (hout : (executeTask cfg (beh env.id) a env.id).outcome = .returns res) :
    processTask cfg beh ⟨q ++ [Msg.valid env], a, ev, sz, cc, fc⟩ =
      ⟨⟨q, (executeTask cfg (beh env.id) a env.id).active,
        ev ++ (blockStart env.id ++ blockFin env.id res.success),
        sz ++ (executeTask cfg (beh env.id) a env.id).sizes,
        cc + (if res.success then 1 else 0),
        fc + (if res.success then 0 else 1)⟩, false⟩ := by
  unfold processTask
  simp only [List.getLast?_concat, List.dropLast_concat, hout, List.append_assoc]

/-- C7: for every task whose environment is provisioned, started and exits with
status 0 (with the post-wait log/result reads succeeding), the observed
progress sequence published for that task is exactly 10, 30, 90, 100 with
steps starting, initializing, finalizing, completed, and the only write that
persists a `status` field stores `completed` (lines 190-240). -/
theorem C7_success_trace (cfg : Config) (beh : String → EnvBehavior) (s : PState)
    (q : List Msg) (env : TaskEnvelope)
    (hq : s.queue = q ++ [Msg.valid env])
    (hfresh : eventsFor env.id s.events = [])
    (hc : (beh env.id).createOk = true) (hw : (beh env.id).writeOk = true)
    (hst : (beh env.id).startOk = true) (hwb : (beh env.id).waitBeh = .exits 0)
    (hp : (beh env.id).postOk = true)
    (hroom : env.id ∈ s.active ∨ s.active.length < MAX_CONTAINERS cfg) :
    (eventsFor env.id (processTask cfg beh s).state.events).map (fun e => e.progress)
        = [10, 30, 90, 100] ∧
      (eventsFor env.id (processTask cfg beh s).state.events).map (fun e => e.step)
        = ["starting", "initializing", "finalizing", "completed"] ∧
      ((eventsFor env.id (processTask cfg beh s).state.events).filter
          (fun e => e.persist)).map (fun e => e.status) = ["completed"] ∧
      (processTask cfg beh s).hung = false := by
  obtain ⟨qq, a, ev, sz, cc, fc⟩ := s
  have hq' : qq = q ++ [Msg.valid env] := hq
  subst hq'
  have hfresh' : eventsFor env.id ev = [] := hfresh
  have hout := executeTask_outcome_exits cfg (beh env.id) a env.id 0 hc hw hst hwb hp hroom
  rw [processTask_returns cfg beh q env a ev sz cc fc _ hout]
  have hfresh'' : List.filter (fun e => e.taskId == env.id) ev = [] := hfresh'
  refine ⟨?_, ?_, ?_, rfl⟩ <;>
    simp [eventsFor, blockStart, blockFin, List.filter_append, hfresh'']

/-- Closed witness for `C7_success_trace`: task `"t1"` submitted alone, its
container exiting 0, yields progress 10, 30, 90, 100 and persisted status
`completed`. -/
theorem C7_success_trace_witness :
    (eventsFor "t1" (processTask ⟨some 2, 2, 1000, "agent-"⟩
          (fun _ => ⟨true, true, true, .exits 0, true, none⟩)
          ⟨[.valid ⟨"t1", "demo", [], "key-1234567890", none⟩], [], [], [], 0, 0⟩).state.events).map
        (fun e => e.progress) = [10, 30, 90, 100] ∧
      (eventsFor "t1" (processTask ⟨some 2, 2, 1000, "agent-"⟩
          (fun _ => ⟨true, true, true, .exits 0, true, none⟩)
          ⟨[.valid ⟨"t1", "demo", [], "key-1234567890", none⟩], [], [], [], 0, 0⟩).state.events).map
        (fun e => e.step) = ["starting", "initializing", "finalizing", "completed"] ∧
      ((eventsFor "t1" (processTask ⟨some 2, 2, 1000, "agent-"⟩
          (fun _ => ⟨true, true, true, .exits 0, true, none⟩)
          ⟨[.valid ⟨"t1", "demo", [], "key-1234567890", none⟩], [], [], [], 0, 0⟩).state.events).filter
          (fun e => e.persist)).map (fun e => e.status) = ["completed"] ∧
      (processTask ⟨some 2, 2, 1000, "agent-"⟩
          (fun _ => ⟨true, true, true, .exits 0, true, none⟩)
          ⟨[.valid ⟨"t1", "demo", [], "key-1234567890", none⟩], [], [], [], 0, 0⟩).hung = false :=
  C7_success_trace ⟨some 2, 2, 1000, "agent-"⟩
    (fun _ => ⟨true, true, true, .exits 0, true, none⟩)
    ⟨[.valid ⟨"t1", "demo", [], "key-1234567890", none⟩], [], [], [], 0, 0⟩
    [] ⟨"t1", "demo", [], "key-1234567890", none⟩
    rfl rfl rfl rfl rfl rfl rfl (Or.inr (by decide))

end AgentExecutor

namespace AgentExecutor

/-- C6 counterexample: the claim says a non-zero exit within the timeout takes
the task from RUNNING directly to FAILED with no intervening finalizing (90%)
emission. In the code, the `updateProgress(…, progress: 90, step:
'finalizing')` at lines 210-215 runs unconditionally after `executeTask`
resolves, BEFORE `result.success` is inspected, so a task whose container
exits 1 emits 10, 30, 90 and only then the failed write (progress 0, fixed
message `'Task failed'`). The run below exhibits the full trace with the
intervening `(90, "finalizing")` emission. -/
theorem C6_cex_finalizing_before_failed :
    processTask ⟨some 2, 2, 1000, "agent-"⟩
        (fun _ => ⟨true, true, true, .exits 1, true, none⟩)
        ⟨[.valid ⟨"t1", "demo", [], "key-1234567890", none⟩], [], [], [], 0, 0⟩
      = ⟨⟨[], [], blockStart "t1" ++ blockFin "t1" false, [1, 0], 0, 1⟩, false⟩ ∧
    ((blockStart "t1" ++ blockFin "t1" false).map fun e => (e.progress, e.step))
      = [(10, "starting"), (30, "initializing"), (90, "finalizing"), (0, "failed")] := by
  exact ⟨rfl, rfl⟩

/-- C6 (amended): for every task whose environment exits with a non-zero
status within its run (provisioning, workspace write, start and the post-wait
reads succeeding), the task does end with a persisted `status=failed`,
progress 0, step `failed` — but a finalizing (90%) emission intervenes between
the last `running` update and the failed write, and the persisted message is
the fixed string `'Task failed'` (the exit code is available only inside the
stored `result` payload), not a message carrying the cause. -/
theorem C6_amended_nonzero_exit_trace (cfg : Config) (beh : String → EnvBehavior)
    (s : PState) (q : List Msg) (env : TaskEnvelope) (code : Nat)
    (hq : s.queue = q ++ [Msg.valid env])
    (hfresh : eventsFor env.id s.events = [])
    (hc : (beh env.id).createOk = true) (hw : (beh env.id).writeOk = true)
    (hst : (beh env.id).startOk = true) (hwb : (beh env.id).waitBeh = .exits code)
    (hp : (beh env.id).postOk = true) (hcode : code ≠ 0)
    (hroom : env.id ∈ s.active ∨ s.active.length < MAX_CONTAINERS cfg) :
    eventsFor env.id (processTask cfg beh s).state.events
        = blockStart env.id ++ blockFin env.id false ∧
      (processTask cfg beh s).hung = false := by
  obtain ⟨qq, a, ev, sz, cc, fc⟩ := s
  have hq' : qq = q ++ [Msg.valid env] := hq
  subst hq'
  have hfresh' : List.filter (fun e => e.taskId == env.id) ev = [] := hfresh
  have hout := executeTask_outcome_exits cfg (beh env.id) a env.id code hc hw hst hwb hp hroom
  rw [processTask_returns cfg beh q env a ev sz cc fc _ hout]
  have hsucc : decide (code = 0) = false := by simp [hcode]
  refine ⟨?_, rfl⟩
  show eventsFor env.id (ev ++ (blockStart env.id ++ blockFin env.id (decide (code = 0))))
      = blockStart env.id ++ blockFin env.id false
  rw [hsucc]
  simp [eventsFor, blockStart, blockFin, List.filter_append, hfresh']

/-- Closed witness for `C6_amended_nonzero_exit_trace`: a container exiting 7
yields trace 10, 30, 90 and then the failed write with progress 0. -/
theorem C6_amended_nonzero_exit_trace_witness :
    eventsFor "t1" (processTask ⟨some 2, 2, 1000, "agent-"⟩
          (fun _ => ⟨true, true, true, .exits 7, true, none⟩)
          ⟨[.valid ⟨"t1", "demo", [], "key-1234567890", none⟩], [], [], [], 0, 0⟩).state.events
        = blockStart "t1" ++ blockFin "t1" false ∧
      (processTask ⟨some 2, 2, 1000, "agent-"⟩
          (fun _ => ⟨true, true, true, .exits 7, true, none⟩)
          ⟨[.valid ⟨"t1", "demo", [], "key-1234567890", none⟩], [], [], [], 0, 0⟩).hung = false :=
  C6_amended_nonzero_exit_trace ⟨some 2, 2, 1000, "agent-"⟩
    (fun _ => ⟨true, true, true, .exits 7, true, none⟩)
    ⟨[.valid ⟨"t1", "demo", [], "key-1234567890", none⟩], [], [], [], 0, 0⟩
    [] ⟨"t1", "demo", [], "key-1234567890", none⟩ 7
    rfl rfl rfl rfl rfl rfl rfl (by decide) (Or.inr (by decide))

end AgentExecutor

namespace AgentExecutor

/-! ### The cleanup sweeper (C9) -/

/-- C9 counterexample: the claim says removing an already-gone environment is
a no-op and that a removal error for one environment never prevents the
removal of the other over-age environments of the same tick. But
`container.inspect()` at line 288 is NOT guarded per container: its rejection
(for example because the container vanished between `listContainers` and
`inspect`) propagates to the single outer try/catch of `cleanup` (lines
299-301), abandoning every remaining listed container. Here both listed
containers are over-age (age 10000 ms against a 1000 ms threshold), the first
one's inspect fails, and the sweep removes NOTHING — in particular not the
second, perfectly inspectable over-age container. -/
theorem C9_cex_inspect_abort :
    cleanup ⟨some 2, 2, 1000, "agent-"⟩ 10000
        [⟨"agent-gone", 0, false, true⟩, ⟨"agent-old", 0, true, true⟩]
      = ⟨[], true⟩ := by
  rfl

theorem cleanupLoop_no_abort (cfg : Config) (now : Int) (l : List ContainerInfo)
    (h : ∀ c ∈ l, c.inspectOk = true) :
    cleanupLoop cfg now l
      = ⟨(l.filter (fun c => decide (cfg.cleanupAfterMs < now - c.created))).map
          (fun c => c.name), false⟩ := by
  induction l with
  | nil => rfl
  | cons c rest ih =>
      have hc : c.inspectOk = true := h c (List.mem_cons_self c rest)
      have hrest : ∀ x ∈ rest, x.inspectOk = true := fun x hx =>
        h x (List.mem_cons_of_mem c hx)
      unfold cleanupLoop
      rw [ih hrest]
      by_cases hage : cfg.cleanupAfterMs < now - c.created <;>
        simp [hc, hage]

/-- C9 (amended): on each tick the sweeper lists environments matching the
executor's naming convention directly from the runtime (the in-memory map is
not an input of `cleanup` at all) and, PROVIDED every listed environment's
inspect succeeds, issues a force-remove for exactly the listed environments
whose age exceeds `cleanupAfterMs`, in list order; remove rejections are
swallowed per environment (the result does not depend on any `removeOk`
flag), so a removal error never prevents the other removals. However, an
inspect rejection — e.g. an environment already gone when inspected — aborts
the remainder of the tick (see the counterexample), so the per-environment
error isolation holds only for the remove step. -/
theorem C9_amended_sweep (cfg : Config) (now : Int) (rc : List ContainerInfo)
    (hins : ∀ c ∈ rc.filter (fun c => nameMatches cfg c), c.inspectOk = true) :
    (cleanup cfg now rc).aborted = false ∧
      (cleanup cfg now rc).attempted
        = ((rc.filter (fun c => nameMatches cfg c)).filter
            (fun c => decide (cfg.cleanupAfterMs < now - c.created))).map
          (fun c => c.name) := by
  unfold cleanup
  rw [cleanupLoop_no_abort cfg now _ hins]
  exact ⟨rfl, rfl⟩

/-- Closed witness for `C9_amended_sweep`: two over-age containers with the
executor's name convention, the first one's remove failing, plus one under-age
and one foreign-named container; both over-age ones get a remove issued, and
the tick does not abort. -/
theorem C9_amended_sweep_witness :
    (cleanup ⟨some 2, 2, 1000, "agent-"⟩ 10000
        [⟨"agent-old1", 0, true, false⟩, ⟨"agent-old2", 0, true, true⟩,
         ⟨"agent-new", 9500, true, true⟩, ⟨"other-old", 0, false, true⟩]).aborted = false ∧
      (cleanup ⟨some 2, 2, 1000, "agent-"⟩ 10000
        [⟨"agent-old1", 0, true, false⟩, ⟨"agent-old2", 0, true, true⟩,
         ⟨"agent-new", 9500, true, true⟩, ⟨"other-old", 0, false, true⟩]).attempted
        = (([⟨"agent-old1", 0, true, false⟩, ⟨"agent-old2", 0, true, true⟩,
             ⟨"agent-new", 9500, true, true⟩,
             ⟨"other-old", 0, false, true⟩] : List ContainerInfo).filter
              (fun c => nameMatches ⟨some 2, 2, 1000, "agent-"⟩ c)
            |>.filter (fun c => decide ((1000 : Int) < 10000 - c.created))).map
          (fun c => c.name) :=
  C9_amended_sweep ⟨some 2, 2, 1000, "agent-"⟩ 10000
    [⟨"agent-old1", 0, true, false⟩, ⟨"agent-old2", 0, true, true⟩,
     ⟨"agent-new", 9500, true, true⟩, ⟨"other-old", 0, false, true⟩]
    (by decide)

end AgentExecutor

namespace AgentExecutor

/-! ### Monotonicity of progress (C8) -/

/-- The progress values published for a task while its published status is
`running`, in order. -/
def runningProgress (l : List Ev) : List Nat :=
  (l.filter (fun e => e.status == "running")).map (fun e => e.progress)

/-- The property C8 asserts of one task's chronological write sequence: the
progress values carried by `running` writes never decrease, and any write that
drops below an earlier progress value is the terminal failed write (published
status `failed`, progress 0). -/
def progressOk (l : List Ev) : Prop :=
  List.Chain' (· ≤ ·) (runningProgress l) ∧
    List.Pairwise (fun a b => b.progress < a.progress → b.status = "failed" ∧ b.progress = 0) l

def msgId : Msg → Option String
  | .malformed _ => none
  | .valid env => some env.id

/-- The task ids of the well-formed messages of a queue, in queue order. -/
def queueIds (q : List Msg) : List String := q.filterMap msgId

theorem queueIds_cons_malformed (raw : String) (rest : List Msg) :
    queueIds (.malformed raw :: rest) = queueIds rest := rfl

theorem queueIds_cons_valid (env : TaskEnvelope) (rest : List Msg) :
    queueIds (.valid env :: rest) = env.id :: queueIds rest := rfl

/-- Invariant carried through the consumer loop for C8: ids still in the queue
are pairwise distinct, no event has yet been written for an id still in the
queue, and every task's written trace satisfies `progressOk`. -/
def InvC8 (q : List Msg) (evs : List Ev) : Prop :=
  (queueIds q).Nodup ∧
    (∀ t ∈ queueIds q, eventsFor t evs = []) ∧
    (∀ t, progressOk (eventsFor t evs))

theorem progressOk_nil : progressOk [] := by
  constructor <;> simp [runningProgress]

theorem progressOk_blockStart (t : String) : progressOk (blockStart t) := by
  constructor <;> simp [runningProgress, blockStart]

theorem progressOk_blockCatch (t m : String) : progressOk (blockCatch t m) := by
  constructor <;> simp [runningProgress, blockCatch]

theorem progressOk_start_fin (t : String) (b : Bool) :
    progressOk (blockStart t ++ blockFin t b) := by
  cases b <;> constructor <;>
    simp [runningProgress, blockStart, blockFin, List.pairwise_cons]

theorem eq_dropLast_append_of_getLast? {α : Type} (l : List α) (a : α)
    (h : l.getLast? = some a) : l = l.dropLast ++ [a] := by
  induction l with
  | nil => simp at h
  | cons x xs ih =>
      cases xs with
      | nil => simp_all
      | cons y ys =>
          rw [List.getLast?_cons_cons] at h
          have hx := ih h
          calc x :: y :: ys = x :: ((y :: ys).dropLast ++ [a]) := by rw [← hx]
            _ = (x :: y :: ys).dropLast ++ [a] := by simp

theorem invC8_extend (qOld qNew : List Msg) (evs blk : List Ev) (u : String)
    (hInv : InvC8 qOld evs) (hsub : qNew.Sublist qOld)
    (hu : u ∈ queueIds qOld) (hnotin : u ∉ queueIds qNew)
    (hblk : ∀ e ∈ blk, e.taskId = u) (hpo : progressOk blk) :
    InvC8 qNew (evs ++ blk) := by
  obtain ⟨hnd, hfresh, hok⟩ := hInv
  have hsubIds : (queueIds qNew).Sublist (queueIds qOld) := hsub.filterMap msgId
  refine ⟨hnd.sublist hsubIds, ?_, ?_⟩
  · intro t ht
    have htOld : t ∈ queueIds qOld := hsubIds.subset ht
    have hne : t ≠ u := fun hh => hnotin (hh ▸ ht)
    rw [eventsFor_append, hfresh t htOld, eventsFor_eq_nil t u blk hblk hne]
    rfl
  · intro t
    by_cases hh : t = u
    · subst hh
      rw [eventsFor_append, hfresh t hu, eventsFor_eq_self t blk hblk]
      simpa using hpo
    · rw [eventsFor_append, eventsFor_eq_nil t u blk hblk hh]
      simpa using hok t

theorem invC8_shrink (qOld qNew : List Msg) (evs : List Ev)
    (hInv : InvC8 qOld evs) (hsub : qNew.Sublist qOld) : InvC8 qNew evs := by
  obtain ⟨hnd, hfresh, hok⟩ := hInv
  have hsubIds : (queueIds qNew).Sublist (queueIds qOld) := hsub.filterMap msgId
  exact ⟨hnd.sublist hsubIds, fun t ht => hfresh t (hsubIds.subset ht), hok⟩

theorem markFailedCatch_invC8 (s : PState) (m : String)
    (h : InvC8 s.queue s.events) :
    InvC8 (markFailedCatch s m).queue (markFailedCatch s m).events := by
  unfold markFailedCatch
  rcases hqq : s.queue with _ | ⟨msg, rest⟩
  · exact h
  rcases msg with raw | env
  · rw [hqq] at h
    exact invC8_shrink _ rest s.events h (List.sublist_cons_self _ rest)
  · rw [hqq] at h
    have hu : env.id ∈ queueIds (Msg.valid env :: rest) := by
      rw [queueIds_cons_valid]; exact List.mem_cons_self _ _
    have hnotin : env.id ∉ queueIds rest := by
      have := h.1
      rw [queueIds_cons_valid] at this
      exact (List.nodup_cons.mp this).1
    exact invC8_extend (Msg.valid env :: rest) rest s.events
      (blockCatch env.id m) env.id h (List.sublist_cons_self _ rest) hu hnotin
      (blockCatch_ids env.id m) (progressOk_blockCatch env.id m)

theorem processTask_invC8 (cfg : Config) (beh : String → EnvBehavior) (s : PState)
    (h : InvC8 s.queue s.events) :
    InvC8 (processTask cfg beh s).state.queue (processTask cfg beh s).state.events := by
  unfold processTask
  rcases hq : s.queue.getLast? with _ | msg
  · exact h
  have hsplit := eq_dropLast_append_of_getLast? s.queue msg hq
  have hsubDrop : s.queue.dropLast.Sublist s.queue := List.dropLast_sublist s.queue
  rcases msg with raw | env
  · exact markFailedCatch_invC8 _ parseErrorMessage
      (invC8_shrink s.queue s.queue.dropLast s.events h hsubDrop)
  · have hids : queueIds s.queue = queueIds s.queue.dropLast ++ [env.id] := by
      conv_lhs => rw [hsplit]
      unfold queueIds
      rw [List.filterMap_append]
      rfl
    have hmem : env.id ∈ queueIds s.queue := by
      rw [hids]; exact List.mem_append_right _ (List.mem_singleton.mpr rfl)
    have hnotin : env.id ∉ queueIds s.queue.dropLast := by
      have hnd := h.1
      rw [hids] at hnd
      have hdisj := (List.nodup_append.mp hnd).2.2
      intro hmem'
      exact hdisj hmem' (List.mem_singleton.mpr rfl)
    have hs3 : InvC8 s.queue.dropLast (s.events ++ blockStart env.id) :=
      invC8_extend s.queue s.queue.dropLast s.events (blockStart env.id) env.id h
        hsubDrop hmem hnotin (blockStart_ids env.id) (progressOk_blockStart env.id)
    rcases ho : (executeTask cfg (beh env.id) s.active env.id).outcome with _ | m | res <;>
      simp only [ho]
    · exact hs3
    · exact markFailedCatch_invC8 _ m hs3
    · have hall : ∀ e ∈ blockStart env.id ++ blockFin env.id res.success,
          e.taskId = env.id := by
        intro e he
        rcases List.mem_append.mp he with hh | hh
        · exact blockStart_ids env.id e hh
        · exact blockFin_ids env.id res.success e hh
      have hext := invC8_extend s.queue s.queue.dropLast s.events
        (blockStart env.id ++ blockFin env.id res.success) env.id h hsubDrop hmem hnotin
        hall (progressOk_start_fin env.id res.success)
      rw [← List.append_assoc] at hext
      exact hext

theorem runTasks_invC8 (cfg : Config) (beh : String → EnvBehavior) (n : Nat) (s : PState)
    (h : InvC8 s.queue s.events) :
    InvC8 (runTasks cfg beh n s).state.queue (runTasks cfg beh n s).state.events := by
  induction n generalizing s with
  | zero => exact h
  | succ n ih =>
      unfold runTasks
      by_cases hh : (processTask cfg beh s).hung <;> simp only [hh, if_true, if_false]
      · exact processTask_invC8 cfg beh s h
      · exact ih _ (processTask_invC8 cfg beh s h)

/-- C8: for every execution of the consumer loop — any number of iterations,
any queue whose well-formed messages carry pairwise-distinct task ids, any
container behaviours (success, non-zero exit, exceptions at any step, hangs) —
and for every task, the progress values published for that task while its
published status is `running` are monotonically non-decreasing, and any write
that drops below an earlier progress value is the terminal failed write
(status `failed`, progress 0). -/
theorem C8_progress_monotone (cfg : Config) (beh : String → EnvBehavior) (n : Nat)
    (s : PState) (hnd : (queueIds s.queue).Nodup) (hev : s.events = []) (t : String) :
    progressOk (eventsFor t (runTasks cfg beh n s).state.events) := by
  have h0 : InvC8 s.queue s.events := by
    refine ⟨hnd, ?_, ?_⟩
    · intro u _; rw [hev]; rfl
    · intro u; rw [hev]; exact progressOk_nil
  exact (runTasks_invC8 cfg beh n s h0).2.2 t

end AgentExecutor

namespace AgentExecutor

/-- Closed witness for `C8_progress_monotone`: a three-message queue (a failing
task `"a"`, a malformed payload whose catch handler then consumes and fails
`"b"`), run to exhaustion; both tasks' traces satisfy `progressOk`. -/
theorem C8_progress_monotone_witness :
    progressOk (eventsFor "a" (runTasks ⟨some 2, 2, 1000, "agent-"⟩
        (fun _ => ⟨true, true, true, .exits 1, true, none⟩) 3
        ⟨[.valid ⟨"b", "demo", [], "key-1234567890", none⟩, .malformed "oops",
          .valid ⟨"a", "demo", [], "key-1234567890", none⟩],
          [], [], [], 0, 0⟩).state.events) ∧
      progressOk (eventsFor "b" (runTasks ⟨some 2, 2, 1000, "agent-"⟩
        (fun _ => ⟨true, true, true, .exits 1, true, none⟩) 3
        ⟨[.valid ⟨"b", "demo", [], "key-1234567890", none⟩, .malformed "oops",
          .valid ⟨"a", "demo", [], "key-1234567890", none⟩],
          [], [], [], 0, 0⟩).state.events) :=
  ⟨C8_progress_monotone ⟨some 2, 2, 1000, "agent-"⟩
      (fun _ => ⟨true, true, true, .exits 1, true, none⟩) 3
      ⟨[.valid ⟨"b", "demo", [], "key-1234567890", none⟩, .malformed "oops",
        .valid ⟨"a", "demo", [], "key-1234567890", none⟩],
        [], [], [], 0, 0⟩ (by decide) rfl "a",
    C8_progress_monotone ⟨some 2, 2, 1000, "agent-"⟩
      (fun _ => ⟨true, true, true, .exits 1, true, none⟩) 3
      ⟨[.valid ⟨"b", "demo", [], "key-1234567890", none⟩, .malformed "oops",
        .valid ⟨"a", "demo", [], "key-1234567890", none⟩],
        [], [], [], 0, 0⟩ (by decide) rfl "b"⟩

end AgentExecutor
